import Mathlib

/-!
Shallow embedding of the OCI Prometheus multi-tenant exporter
(`main.go`, with the per-metric variant's label selection as well).
Durations are modelled in milliseconds; metric values as integers.
-/

namespace OciExporter

/-- One millisecond-denominated second (`time.Second` relative to `time.Millisecond`). -/
def Second : Nat := 1000

/-- One minute in milliseconds (`time.Minute`). -/
def Minute : Nat := 60 * Second

/-- `Tenancy` record from `tenants.yaml` (main.go). -/
structure Tenancy where
  Name : String
  TenancyID : String
  CompartmentID : String
  Region : String
deriving DecidableEq, Repr

/-- `MetricNamespace` record from `metrics.yaml` (main.go). -/
structure MetricNamespace where
  Namespace : String
  Names : List String
  ResourceGroup : String
  Resolution : String
deriving DecidableEq, Repr

/-- One aggregated datapoint of a series (`monitoring.AggregatedDatapoint`). -/
structure AggregatedDatapoint where
  Timestamp : Int
  Value : Int
deriving DecidableEq, Repr

/-- One returned series (`monitoring.MetricData`): optional name, dimension map
(modelled as an association list in the provider's iteration order), and the
time-ordered datapoint sequence. -/
structure MetricData where
  Name : Option String
  Dimensions : List (String × String)
  AggregatedDatapoints : List AggregatedDatapoint
deriving DecidableEq, Repr

/-- Result of one `SummarizeMetricsData` invocation: the response items, or an
error message. -/
inductive CallResult where
  | ok (items : List MetricData)
  | err (msg : String)
deriving DecidableEq, Repr

/-- Whether the first character list is a prefix of the second. -/
def isPrefixList : List Char → List Char → Bool
  | [], _ => true
  | _ :: _, [] => false
  | a :: as, b :: bs => a == b && isPrefixList as bs

/-- Whether the first character list occurs contiguously inside the second. -/
def isInfixList (pat : List Char) : List Char → Bool
  | [] => isPrefixList pat []
  | c :: rest => isPrefixList pat (c :: rest) || isInfixList pat rest

/-- `strings.Contains s pat`: `pat` occurs as a substring of `s`. -/
def strContains (s pat : String) : Bool := isInfixList pat.data s.data

/-- The retry condition of `summarizeWithRetry`: the Go code keeps looping
exactly when the call failed and the error text contains "TooManyRequests". -/
def retriable : CallResult → Bool
  | CallResult.ok _ => false
  | CallResult.err msg => strContains msg "TooManyRequests"

/-- `monitoring.SummarizeMetricsDataRequest` as built in `collectMetrics`
(main.go): compartment scope with subtree flag, namespace, MQL text and the
`[start, end)` window, plus the optional modifiers. -/
structure SummarizeMetricsDataRequest where
  CompartmentId : String
  CompartmentIdInSubtree : Bool
  Namespace : String
  Query : String
  StartTime : Int
  EndTime : Int
  ResourceGroup : Option String
  Resolution : Option String
deriving DecidableEq, Repr

/-- Observable timed events of the collector: an outbound provider call, or a
sleep of the given number of milliseconds. -/
inductive Event where
  | call (req : SummarizeMetricsDataRequest)
  | sleep (ms : Nat)
deriving DecidableEq, Repr

/-- Loop body of `summarizeWithRetry` (main.go): `attempt` is the current loop
index, the second argument the remaining iterations (`3 - attempt`), `last` the
`resp, err` pair left from the previous iteration.  Each iteration invokes the
scripted client; on success or a non-rate-limit error it returns at once,
otherwise it sleeps `2^attempt` seconds and continues.  The returned event list
records the calls and backoff sleeps in order. -/
def retryGo (client : Nat → CallResult) (req : SummarizeMetricsDataRequest) :
    Nat → Nat → CallResult → CallResult × List Event
  | _attempt, 0, last => (last, [])
  | attempt, r + 1, _ =>
    let res := client attempt
    if retriable res then
      let rest := retryGo client req (attempt + 1) r res
      (rest.1, Event.call req :: Event.sleep (2 ^ attempt * Second) :: rest.2)
    else
      (res, [Event.call req])

/-- `summarizeWithRetry` (main.go): at most 3 attempts starting at attempt 0. -/
def summarizeWithRetry (client : Nat → CallResult) (req : SummarizeMetricsDataRequest) :
    CallResult × List Event :=
  retryGo client req 0 3 (CallResult.ok [])

/-- Whether an event is an outbound call. -/
def isCallEvent : Event → Bool
  | Event.call _ => true
  | Event.sleep _ => false

/-- The sleep duration of an event, when it is a sleep. -/
def sleepMs : Event → Option Nat
  | Event.sleep ms => some ms
  | Event.call _ => none

/-- The request of an event, when it is a call. -/
def reqOf : Event → Option SummarizeMetricsDataRequest
  | Event.call req => some req
  | Event.sleep _ => none

/-- Number of outbound calls recorded in a trace. -/
def numCalls (evs : List Event) : Nat := (evs.filter isCallEvent).length

/-- The sleeps of a trace, in order, in milliseconds. -/
def sleepsOf (evs : List Event) : List Nat := evs.filterMap sleepMs

/-- The requests of the call events of a trace, in order. -/
def callRequests (evs : List Event) : List SummarizeMetricsDataRequest :=
  evs.filterMap reqOf

/-- A scripted client that fails with a rate-limit error on its first two
invocations and then succeeds with an empty item list. -/
def rlTwiceClient : Nat → CallResult := fun i =>
  if i < 2 then CallResult.err "429 TooManyRequests" else CallResult.ok []

/-- A scripted client that always fails with a rate-limit error. -/
def rlAlwaysClient : Nat → CallResult := fun _ => CallResult.err "429 TooManyRequests"

/-- A concrete request used to exercise the retry wrapper. -/
def exReq : SummarizeMetricsDataRequest :=
  { CompartmentId := "ocid1.compartment.oc1..aaa"
    CompartmentIdInSubtree := true
    Namespace := "oci_computeagent"
    Query := "CpuUtilization[1m].mean()"
    StartTime := 0
    EndTime := 60000
    ResourceGroup := none
    Resolution := none }

/-- Prometheus label set of the grouped collector's gauge (main.go). -/
structure Labels where
  tenancy : String
  region : String
  namespace_ : String
  metric : String
  dimension_key : String
  dimension_value : String
deriving DecidableEq, Repr

/-- One published (label set, value) pair. -/
structure Sample where
  labels : Labels
  value : Int
deriving DecidableEq, Repr

/-- Go map indexing `dims["k"]`: the value under the key, `""` when absent. -/
def dimLookup (dims : List (String × String)) (k : String) : String :=
  match dims.find? (fun p => p.1 == k) with
  | some p => p.2
  | none => ""

/-- Dimension-label selection of `collectMetrics` (main.go): start from
`("resourceId", dims["resourceId"])`; when that value is empty, take the
first key/value pair with a non-empty value in iteration order, if any. -/
def selectDimension (dims : List (String × String)) : String × String :=
  let dimVal := dimLookup dims "resourceId"
  if dimVal = "" then
    match dims.find? (fun p => p.2 != "") with
    | some p => p
    | none => ("resourceId", "")
  else
    ("resourceId", dimVal)

/-- The per-series body of the `resp.Items` loop of `collectMetrics`
(main.go): series without datapoints are skipped; otherwise the last
datapoint's value is published under the selected labels, with the metric
label taken from the provider-reported series name, or `""` when absent. -/
def mapItem (t : Tenancy) (ns : MetricNamespace) (item : MetricData) : Option Sample :=
  match item.AggregatedDatapoints.getLast? with
  | none => none
  | some latest =>
    let sel := selectDimension item.Dimensions
    let metricLabel :=
      match item.Name with
      | some n => n
      | none => ""
    some { labels := { tenancy := t.Name, region := t.Region, namespace_ := ns.Namespace,
                       metric := metricLabel, dimension_key := sel.1,
                       dimension_value := sel.2 },
           value := latest.Value }

/-- The gauge registry: label set to last written value, in insertion order. -/
abbrev Registry := List (Labels × Int)

/-- `gauge.With(labels).Set(v)`: overwrite the entry for the label set, or
create it. -/
def setGauge (r : Registry) (l : Labels) (v : Int) : Registry :=
  if r.any (fun p => p.1 == l) then
    r.map (fun p => if p.1 == l then (l, v) else p)
  else
    r ++ [(l, v)]

/-- The `for _, item := range resp.Items` loop of `collectMetrics` (main.go). -/
def applyItems (t : Tenancy) (ns : MetricNamespace) (items : List MetricData)
    (r : Registry) : Registry :=
  items.foldl (fun acc item =>
    match mapItem t ns item with
    | none => acc
    | some s => setGauge acc s.labels s.value) r

/-- Label set of the per-metric collector variant's gauge. -/
structure PerMetricLabels where
  tenancy : String
  region : String
  namespace_ : String
  metric : String
  resource_id : String
  resource_display_name : String
deriving DecidableEq, Repr

/-- One published pair of the per-metric collector variant. -/
structure PerMetricSample where
  labels : PerMetricLabels
  value : Int
deriving DecidableEq, Repr

/-- The per-series body of the per-metric collector variant's `resp.Items`
loop: `name` is the requested metric name of the enclosing loop; the metric
label prefers the provider-reported series name and falls back to `name`. -/
def mapItemPerMetric (ten : Tenancy) (ns : MetricNamespace) (name : String)
    (item : MetricData) : Option PerMetricSample :=
  match item.AggregatedDatapoints.getLast? with
  | none => none
  | some latest =>
    let resID := dimLookup item.Dimensions "resourceId"
    let dispName := dimLookup item.Dimensions "resourceDisplayName"
    let metricLabel :=
      match item.Name with
      | some n => n
      | none => name
    some { labels := { tenancy := ten.Name, region := ten.Region,
                       namespace_ := ns.Namespace, metric := metricLabel,
                       resource_id := resID, resource_display_name := dispName },
           value := latest.Value }

/-- One MQL term: `fmt.Sprintf("%s[1m].mean()", m)`. -/
def queryTerm (m : String) : String := m ++ "[1m].mean()"

/-- The `parts` slice of `collectMetrics` (main.go): one term per configured
metric name, in order. -/
def queryParts (names : List String) : List String := names.map queryTerm

/-- `strings.Join(parts, ",")`: the grouped MQL query for a namespace. -/
def buildQuery (names : List String) : String :=
  String.intercalate "," (queryParts names)

/-- The `[1m]` sampling interval used inside every query term, in ms. -/
def samplingInterval : Nat := Minute

/-- The request of `collectMetrics` (main.go) for one (tenant, namespace)
pair: compartment scope with subtree inclusion, the grouped query, the time
window `[now − 1 minute, now)`, and the optional modifiers only when
configured. -/
def buildRequest (t : Tenancy) (ns : MetricNamespace) (now : Int) :
    SummarizeMetricsDataRequest :=
  { CompartmentId := t.CompartmentID
    CompartmentIdInSubtree := true
    Namespace := ns.Namespace
    Query := buildQuery ns.Names
    StartTime := now - (Minute : Nat)
    EndTime := now
    ResourceGroup := if ns.ResourceGroup = "" then none else some ns.ResourceGroup
    Resolution := if ns.Resolution = "" then none else some ns.Resolution }

/-- Per-(tenant, namespace) body of `collectMetrics` (main.go): an empty name
list is skipped entirely (no call, no sleep); otherwise the request goes
through `summarizeWithRetry`, an error is only logged and leaves the registry
untouched, a success folds the items into the registry, and in either case a
100 ms pacing sleep follows.  The `Nat` component counts the client
invocations consumed so far, so that the shared scripted client is indexed
globally across pairs. -/
def processNamespace (client : Nat → CallResult) (t : Tenancy) (now : Int)
    (ns : MetricNamespace) (st : Registry × List Event × Nat) :
    Registry × List Event × Nat :=
  if ns.Names.isEmpty then st
  else
    let req := buildRequest t ns now
    let res := summarizeWithRetry (fun i => client (st.2.2 + i)) req
    let r2 :=
      match res.1 with
      | CallResult.err _ => st.1
      | CallResult.ok items => applyItems t ns items st.1
    (r2, st.2.1 ++ res.2 ++ [Event.sleep 100], st.2.2 + numCalls res.2)

/-- The `for _, ns := range config.Metrics` loop of `collectMetrics`. -/
def processNamespaces (client : Nat → CallResult) (t : Tenancy) (now : Int) :
    List MetricNamespace → Registry × List Event × Nat → Registry × List Event × Nat
  | [], st => st
  | ns :: rest, st =>
    processNamespaces client t now rest (processNamespace client t now ns st)

/-- The `for _, t := range tenants.Tenancies` loop of `collectMetrics`;
`times i` is the value of `time.Now().UTC()` observed for the i-th tenant. -/
def collectTenants (client : Nat → CallResult) (times : Nat → Int)
    (nss : List MetricNamespace) :
    List Tenancy → Nat → Registry × List Event × Nat → Registry × List Event × Nat
  | [], _, st => st
  | t :: rest, i, st =>
    collectTenants client times nss rest (i + 1)
      (processNamespaces client t (times i) nss st)

/-- One sweep of `collectMetrics` (main.go) over a scripted client, starting
from the previously published registry `r0`. -/
def collectMetrics (client : Nat → CallResult) (times : Nat → Int)
    (tenants : List Tenancy) (nss : List MetricNamespace) (r0 : Registry) :
    Registry × List Event × Nat :=
  collectTenants client times nss tenants 0 (r0, [], 0)

/-- One step of the gap analysis of a trace: accumulate sleep milliseconds
since the previous call; on a call, emit the accumulated gap. -/
def stepGap : List Nat × Option Nat → Event → List Nat × Option Nat
  | (gaps, some a), Event.sleep ms => (gaps, some (a + ms))
  | (gaps, none), Event.sleep _ => (gaps, none)
  | (gaps, some a), Event.call _ => (gaps ++ [a], some 0)
  | (gaps, none), Event.call _ => (gaps, some 0)

/-- The inter-call gaps of a trace: for each pair of consecutive call events,
the total sleep milliseconds between them. -/
def callGaps (evs : List Event) : List Nat := (evs.foldl stepGap ([], none)).1

/-- Invariant of the gap analysis: all emitted gaps are at least 100 ms, and
any pending accumulator already carries at least 100 ms of sleep. -/
def gapInv (st : List Nat × Option Nat) : Prop :=
  (∀ g ∈ st.1, 100 ≤ g) ∧ (∀ a, st.2 = some a → 100 ≤ a)

/-- A concrete tenant used by the witnesses. -/
def exTenant : Tenancy :=
  { Name := "prod", TenancyID := "ocid1.tenancy.oc1..aaa"
    CompartmentID := "ocid1.compartment.oc1..bbb", Region := "eu-frankfurt-1" }

/-- A concrete namespace requesting metrics "A" and "B". -/
def exNamespaceAB : MetricNamespace :=
  { Namespace := "N", Names := ["A", "B"], ResourceGroup := "", Resolution := "" }

/-- A namespace with an empty metric-name list. -/
def emptyNamespace : MetricNamespace :=
  { Namespace := "idle", Names := [], ResourceGroup := "", Resolution := "" }

/-- Series "A" with the two datapoints 10 and 20. -/
def itemA : MetricData :=
  { Name := some "A", Dimensions := [("resourceId", "ocid1.instance.r1")]
    AggregatedDatapoints := [{ Timestamp := 0, Value := 10 },
                             { Timestamp := 60000, Value := 20 }] }

/-- Series "B" with no datapoints. -/
def itemB : MetricData :=
  { Name := some "B", Dimensions := [("resourceId", "ocid1.instance.r1")]
    AggregatedDatapoints := [] }

/-- A series whose provider-reported name is absent. -/
def itemNoName : MetricData :=
  { Name := none, Dimensions := [("resourceId", "ocid1.instance.r1")]
    AggregatedDatapoints := [{ Timestamp := 0, Value := 7 }] }

/-- A series with one datapoint and only empty dimension values. -/
def itemEmptyDims : MetricData :=
  { Name := some "A", Dimensions := [("resourceId", ""), ("faultDomain", "")]
    AggregatedDatapoints := [{ Timestamp := 0, Value := 5 }] }

/-- A client whose every call succeeds with series "A" and "B". -/
def okClientAB : Nat → CallResult := fun _ => CallResult.ok [itemA, itemB]

/-- A client whose first call fails with a non-rate-limit error and whose
later calls succeed with series "A". -/
def mixedClient : Nat → CallResult := fun i =>
  if i = 0 then CallResult.err "boom" else CallResult.ok [itemA]

/-- A fixed time oracle. -/
def exTimes : Nat → Int := fun _ => 300000

/-- A namespace requesting only metric "A". -/
def exNamespaceA1 : MetricNamespace :=
  { Namespace := "N1", Names := ["A"], ResourceGroup := "", Resolution := "" }

/-- A second namespace requesting only metric "A". -/
def exNamespaceA2 : MetricNamespace :=
  { Namespace := "N2", Names := ["A"], ResourceGroup := "", Resolution := "" }

/-- Full case analysis of `summarizeWithRetry` on the retry condition of the
first three scripted results. -/
theorem retry_char (client : Nat → CallResult) (req : SummarizeMetricsDataRequest) :
    (retriable (client 0) = false →
      summarizeWithRetry client req = (client 0, [Event.call req])) ∧
    (retriable (client 0) = true → retriable (client 1) = false →
      summarizeWithRetry client req =
        (client 1, [Event.call req, Event.sleep (1 * Second), Event.call req])) ∧
    (retriable (client 0) = true → retriable (client 1) = true → retriable (client 2) = false →
      summarizeWithRetry client req =
        (client 2, [Event.call req, Event.sleep (1 * Second), Event.call req,
          Event.sleep (2 * Second), Event.call req])) ∧
    (retriable (client 0) = true → retriable (client 1) = true → retriable (client 2) = true →
      summarizeWithRetry client req =
        (client 2, [Event.call req, Event.sleep (1 * Second), Event.call req,
          Event.sleep (2 * Second), Event.call req, Event.sleep (4 * Second)])) := by
  refine ⟨?_, ?_, ?_, ?_⟩ <;> intros <;>
    simp_all [summarizeWithRetry, retryGo, pow_succ]

/-- C1: `summarizeWithRetry` issues at most 3 attempts; the backoff sleep
between attempt `i` and attempt `i+1` is exactly `2^i` seconds; a backoff
occurs after attempt `i` when and only when that attempt failed with a
rate-limit-class ("TooManyRequests") error; the value returned is always the
result of the last attempt issued (in particular the last error after
exhaustion); and a client that fails with a rate-limit error twice and then
succeeds yields the successful response after backoff sleeps of 1s and 2s. -/
theorem summarizeWithRetry_retry_policy (client : Nat → CallResult)
    (req : SummarizeMetricsDataRequest) :
    numCalls (summarizeWithRetry client req).2 ≤ 3 ∧
    (∀ i, i < (sleepsOf (summarizeWithRetry client req).2).length →
      (sleepsOf (summarizeWithRetry client req).2)[i]? = some (2 ^ i * Second)) ∧
    (∀ i, i < (sleepsOf (summarizeWithRetry client req).2).length ↔
      (i < numCalls (summarizeWithRetry client req).2 ∧ retriable (client i) = true)) ∧
    (summarizeWithRetry client req).1 =
      client (numCalls (summarizeWithRetry client req).2 - 1) ∧
    (retriable (client 0) = true → retriable (client 1) = true →
      ∀ items, client 2 = CallResult.ok items →
        (summarizeWithRetry client req).1 = CallResult.ok items ∧
        sleepsOf (summarizeWithRetry client req).2 = [1 * Second, 2 * Second]) := by
  obtain ⟨hA, hB, hC, hD⟩ := retry_char client req
  by_cases h0 : retriable (client 0) = true
  · by_cases h1 : retriable (client 1) = true
    · by_cases h2 : retriable (client 2) = true
      · rw [hD h0 h1 h2]
        have hs : sleepsOf [Event.call req, Event.sleep (1 * Second), Event.call req,
            Event.sleep (2 * Second), Event.call req, Event.sleep (4 * Second)] =
            [1 * Second, 2 * Second, 4 * Second] := by
          simp [sleepsOf, sleepMs]
        have hc : numCalls [Event.call req, Event.sleep (1 * Second), Event.call req,
            Event.sleep (2 * Second), Event.call req, Event.sleep (4 * Second)] = 3 := by
          simp [numCalls, isCallEvent]
        rw [hs, hc]
        refine ⟨by omega, ?_, ?_, rfl, ?_⟩
        · intro i hi
          simp only [List.length_cons, List.length_nil] at hi
          rcases i with _ | _ | _ | i
          · norm_num
          · norm_num
          · norm_num [Second]
          · omega
        · intro i
          simp only [List.length_cons, List.length_nil]
          constructor
          · intro hi
            refine ⟨by omega, ?_⟩
            rcases i with _ | _ | _ | i
            · exact h0
            · exact h1
            · exact h2
            · omega
          · rintro ⟨hi, -⟩
            omega
        · intro _ _ items hitems
          rw [hitems] at h2
          simp [retriable] at h2
      · rw [Bool.not_eq_true] at h2
        rw [hC h0 h1 h2]
        have hs : sleepsOf [Event.call req, Event.sleep (1 * Second), Event.call req,
            Event.sleep (2 * Second), Event.call req] = [1 * Second, 2 * Second] := by
          simp [sleepsOf, sleepMs]
        have hc : numCalls [Event.call req, Event.sleep (1 * Second), Event.call req,
            Event.sleep (2 * Second), Event.call req] = 3 := by
          simp [numCalls, isCallEvent]
        rw [hs, hc]
        refine ⟨by omega, ?_, ?_, rfl, ?_⟩
        · intro i hi
          simp only [List.length_cons, List.length_nil] at hi
          rcases i with _ | _ | i
          · norm_num
          · norm_num
          · omega
        · intro i
          simp only [List.length_cons, List.length_nil]
          constructor
          · intro hi
            refine ⟨by omega, ?_⟩
            rcases i with _ | _ | i
            · exact h0
            · exact h1
            · omega
          · rintro ⟨hi, hr⟩
            rcases i with _ | _ | _ | i
            · omega
            · omega
            · rw [h2] at hr
              cases hr
            · omega
        · intro _ _ items hitems
          exact ⟨hitems, rfl⟩
    · rw [Bool.not_eq_true] at h1
      rw [hB h0 h1]
      have hs : sleepsOf [Event.call req, Event.sleep (1 * Second), Event.call req] =
          [1 * Second] := by
        simp [sleepsOf, sleepMs]
      have hc : numCalls [Event.call req, Event.sleep (1 * Second), Event.call req] = 2 := by
        simp [numCalls, isCallEvent]
      rw [hs, hc]
      refine ⟨by omega, ?_, ?_, rfl, ?_⟩
      · intro i hi
        simp only [List.length_cons, List.length_nil] at hi
        rcases i with _ | i
        · norm_num
        · omega
      · intro i
        simp only [List.length_cons, List.length_nil]
        constructor
        · intro hi
          refine ⟨by omega, ?_⟩
          rcases i with _ | i
          · exact h0
          · omega
        · rintro ⟨hi, hr⟩
          rcases i with _ | _ | i
          · omega
          · rw [h1] at hr
            cases hr
          · omega
      · intro _ hb
        rw [h1] at hb
        cases hb
  · rw [Bool.not_eq_true] at h0
    rw [hA h0]
    have hs : sleepsOf [Event.call req] = ([] : List Nat) := by
      simp [sleepsOf, sleepMs]
    have hc : numCalls [Event.call req] = 1 := by
      simp [numCalls, isCallEvent]
    rw [hs, hc]
    refine ⟨by omega, ?_, ?_, rfl, ?_⟩
    · intro i hi
      simp at hi
    · intro i
      simp only [List.length_nil]
      constructor
      · intro hi
        omega
      · rintro ⟨hi, hr⟩
        rcases i with _ | i
        · rw [h0] at hr
          cases hr
        · omega
    · intro ha
      rw [h0] at ha
      cases ha

/-- Witness for C1: the scripted client that fails with a rate-limit error
twice and then succeeds returns the successful response after backoff sleeps
of exactly 1s and 2s. -/
theorem summarizeWithRetry_retry_policy_witness :
    (summarizeWithRetry rlTwiceClient exReq).1 = CallResult.ok [] ∧
    sleepsOf (summarizeWithRetry rlTwiceClient exReq).2 = [1 * Second, 2 * Second] := by
  exact (summarizeWithRetry_retry_policy rlTwiceClient exReq).2.2.2.2
    (by decide) (by decide) [] (by decide)

/-- C10: when every one of the 3 attempts fails with a rate-limit-class error,
the wrapper performs the backoff sleep after the final failed attempt as well
(sleeps of 1s, 2s and 4s), its trace ends with the 4-second sleep, and the
last error is returned. -/
theorem summarizeWithRetry_final_backoff (client : Nat → CallResult)
    (req : SummarizeMetricsDataRequest)
    (h0 : retriable (client 0) = true) (h1 : retriable (client 1) = true)
    (h2 : retriable (client 2) = true) :
    sleepsOf (summarizeWithRetry client req).2 = [1 * Second, 2 * Second, 4 * Second] ∧
    (summarizeWithRetry client req).2.getLast? = some (Event.sleep (4 * Second)) ∧
    (summarizeWithRetry client req).1 = client 2 := by
  obtain ⟨-, -, -, hD⟩ := retry_char client req
  rw [hD h0 h1 h2]
  refine ⟨?_, ?_, rfl⟩
  · simp [sleepsOf, sleepMs]
  · simp

/-- Witness for C10: the always-rate-limited client produces backoff sleeps of
1s, 2s and 4s and ends its trace with the 4-second sleep. -/
theorem summarizeWithRetry_final_backoff_witness :
    sleepsOf (summarizeWithRetry rlAlwaysClient exReq).2 =
      [1 * Second, 2 * Second, 4 * Second] ∧
    (summarizeWithRetry rlAlwaysClient exReq).2.getLast? =
      some (Event.sleep (4 * Second)) ∧
    (summarizeWithRetry rlAlwaysClient exReq).1 = rlAlwaysClient 2 :=
  summarizeWithRetry_final_backoff rlAlwaysClient exReq
    (by decide) (by decide) (by decide)

/-- The four possible event traces of one `summarizeWithRetry` call. -/
theorem retry_events_cases (client : Nat → CallResult) (req : SummarizeMetricsDataRequest) :
    (summarizeWithRetry client req).2 = [Event.call req] ∨
    (summarizeWithRetry client req).2 =
      [Event.call req, Event.sleep (1 * Second), Event.call req] ∨
    (summarizeWithRetry client req).2 =
      [Event.call req, Event.sleep (1 * Second), Event.call req,
        Event.sleep (2 * Second), Event.call req] ∨
    (summarizeWithRetry client req).2 =
      [Event.call req, Event.sleep (1 * Second), Event.call req,
        Event.sleep (2 * Second), Event.call req, Event.sleep (4 * Second)] := by
  obtain ⟨hA, hB, hC, hD⟩ := retry_char client req
  by_cases h0 : retriable (client 0) = true
  · by_cases h1 : retriable (client 1) = true
    · by_cases h2 : retriable (client 2) = true
      · exact Or.inr (Or.inr (Or.inr (by rw [hD h0 h1 h2])))
      · rw [Bool.not_eq_true] at h2
        exact Or.inr (Or.inr (Or.inl (by rw [hC h0 h1 h2])))
    · rw [Bool.not_eq_true] at h1
      exact Or.inr (Or.inl (by rw [hB h0 h1]))
  · rw [Bool.not_eq_true] at h0
    exact Or.inl (by rw [hA h0])

/-- C2: a series with no datapoints yields no sample and no registry write;
a series with at least one datapoint yields exactly one sample whose value is
the value of the last datapoint of its time-ordered sequence (not an average),
and folding that series into the registry writes exactly that value under the
sample's labels. -/
theorem mapItem_last_datapoint (t : Tenancy) (ns : MetricNamespace)
    (item : MetricData) (r : Registry) :
    (item.AggregatedDatapoints = [] → mapItem t ns item = none) ∧
    (∀ dp, item.AggregatedDatapoints.getLast? = some dp →
      (mapItem t ns item).map Sample.value = some dp.Value) ∧
    (mapItem t ns item = none → applyItems t ns [item] r = r) ∧
    (∀ s, mapItem t ns item = some s →
      applyItems t ns [item] r = setGauge r s.labels s.value) := by
  refine ⟨?_, ?_, ?_, ?_⟩
  · intro h
    simp [mapItem, h]
  · intro dp hdp
    simp [mapItem, hdp]
  · intro h
    simp [applyItems, h]
  · intro s hs
    simp [applyItems, hs]

/-- Witness for C2: series "A" with datapoints 10 then 20 publishes 20 (not
the average 15); series "B" with no datapoints publishes nothing; mapping the
response with both series writes exactly one registry entry, for "A". -/
theorem mapItem_last_datapoint_witness :
    mapItem exTenant exNamespaceAB itemB = none ∧
    (mapItem exTenant exNamespaceAB itemA).map Sample.value = some 20 ∧
    applyItems exTenant exNamespaceAB [itemA, itemB] ([] : Registry) =
      [({ tenancy := "prod", region := "eu-frankfurt-1", namespace_ := "N",
          metric := "A", dimension_key := "resourceId",
          dimension_value := "ocid1.instance.r1" }, 20)] := by
  refine ⟨?_, ?_, by decide⟩
  · exact (mapItem_last_datapoint exTenant exNamespaceAB itemB []).1 rfl
  · exact (mapItem_last_datapoint exTenant exNamespaceAB itemA []).2.1
      { Timestamp := 60000, Value := 20 } (by decide)

/-- C6: when the dimension map carries a non-empty `resourceId` value, the
selected pair is `("resourceId", that value)`; when it does not but some pair
with a non-empty value exists, the selected pair is one of the map's own
pairs and its value is non-empty (which pair is unspecified). -/
theorem selectDimension_policy (dims : List (String × String)) :
    (dimLookup dims "resourceId" ≠ "" →
      selectDimension dims = ("resourceId", dimLookup dims "resourceId")) ∧
    (dimLookup dims "resourceId" = "" → (∃ p ∈ dims, p.2 ≠ "") →
      selectDimension dims ∈ dims ∧ (selectDimension dims).2 ≠ "") := by
  constructor
  · intro h
    simp [selectDimension, h]
  · intro h hex
    have hfind : ∃ p, dims.find? (fun p => p.2 != "") = some p := by
      obtain ⟨p, hp, hv⟩ := hex
      rcases hf : dims.find? (fun p => p.2 != "") with _ | q
      · exfalso
        have := List.find?_eq_none.mp hf p hp
        simp at this
        exact hv this
      · exact ⟨q, hf⟩
    obtain ⟨p, hp⟩ := hfind
    have hmem := List.mem_of_find?_eq_some hp
    have hval := List.find?_some hp
    simp at hval
    constructor
    · simpa [selectDimension, h, hp] using hmem
    · simpa [selectDimension, h, hp] using hval

/-- Witness for C6: a map with non-empty `resourceId` selects it; a map with
only an `availabilityDomain` pair selects that pair. -/
theorem selectDimension_policy_witness :
    selectDimension [("resourceId", "r1")] = ("resourceId", "r1") ∧
    (selectDimension [("availabilityDomain", "AD-1")] ∈
        [("availabilityDomain", "AD-1")] ∧
      (selectDimension [("availabilityDomain", "AD-1")]).2 ≠ "") := by
  constructor
  · exact ((selectDimension_policy [("resourceId", "r1")]).1 (by decide)).trans (by decide)
  · exact (selectDimension_policy [("availabilityDomain", "AD-1")]).2 (by decide)
      ⟨("availabilityDomain", "AD-1"), by decide, by decide⟩

/-- When every dimension value is empty (or the map is empty), the selection
stays at the initial `("resourceId", "")`. -/
theorem selectDimension_all_empty (dims : List (String × String))
    (h : ∀ p ∈ dims, p.2 = "") : selectDimension dims = ("resourceId", "") := by
  have h1 : dimLookup dims "resourceId" = "" := by
    rcases hf : dims.find? (fun p => p.1 == "resourceId") with _ | p
    · simp [dimLookup, hf]
    · simp [dimLookup, hf]
      exact h p (List.mem_of_find?_eq_some hf)
  have h2 : dims.find? (fun p => p.2 != "") = none := by
    rw [List.find?_eq_none]
    intro p hp
    simp [h p hp]
  simp [selectDimension, h1, h2]

/-- C9: a series with at least one datapoint but with only empty dimension
values (or an empty dimension map) is still published, with dimension key
"resourceId" and empty dimension value, not skipped. -/
theorem mapItem_empty_dimensions (t : Tenancy) (ns : MetricNamespace)
    (item : MetricData) (dp : AggregatedDatapoint)
    (hdp : item.AggregatedDatapoints.getLast? = some dp)
    (hdims : ∀ p ∈ item.Dimensions, p.2 = "") :
    (mapItem t ns item).map
        (fun s => (s.labels.dimension_key, s.labels.dimension_value, s.value)) =
      some ("resourceId", "", dp.Value) := by
  simp [mapItem, hdp, selectDimension_all_empty item.Dimensions hdims]

/-- Witness for C9: a series with one datapoint of value 5 and two empty
dimension values is published under `("resourceId", "")`. -/
theorem mapItem_empty_dimensions_witness :
    (mapItem exTenant exNamespaceAB itemEmptyDims).map
        (fun s => (s.labels.dimension_key, s.labels.dimension_value, s.value)) =
      some ("resourceId", "", 5) :=
  mapItem_empty_dimensions exTenant exNamespaceAB itemEmptyDims
    { Timestamp := 0, Value := 5 } (by decide) (by decide)

/-- C5 counterexample: in the grouped collector (main.go), a series whose
provider-reported name is absent is published with the empty string as its
metric label, which is not one of the requested metric names — the label does
not fall back to the originally requested name. -/
theorem metric_label_fallback_cex :
    (mapItem exTenant exNamespaceAB itemNoName).map (fun s => s.labels.metric) =
      some "" ∧
    exNamespaceAB.Names = ["A", "B"] ∧
    ("" : String) ∉ exNamespaceAB.Names := by
  refine ⟨by decide, by decide, by decide⟩

/-- C5 amended: both collectors prefer the provider-reported series name; when
it is absent, the per-metric collector variant falls back to the requested
metric name, while the grouped collector (main.go) uses the empty string. -/
theorem metric_label_fallback (ten : Tenancy) (ns : MetricNamespace)
    (name : String) (item : MetricData) :
    (∀ s, mapItem ten ns item = some s →
      s.labels.metric = (match item.Name with | some n => n | none => "")) ∧
    (∀ s, mapItemPerMetric ten ns name item = some s →
      s.labels.metric = (match item.Name with | some n => n | none => name)) := by
  constructor
  · intro s hs
    rcases hl : item.AggregatedDatapoints.getLast? with _ | dp
    · simp [mapItem, hl] at hs
    · simp [mapItem, hl] at hs
      rw [← hs]
  · intro s hs
    rcases hl : item.AggregatedDatapoints.getLast? with _ | dp
    · simp [mapItemPerMetric, hl] at hs
    · simp [mapItemPerMetric, hl] at hs
      rw [← hs]

/-- Witness for the amended C5: for the nameless series, the grouped collector
labels the sample `""` while the per-metric collector labels it with the
requested name "A". -/
theorem metric_label_fallback_witness :
    (mapItem exTenant exNamespaceAB itemNoName).map (fun s => s.labels.metric) =
      some "" ∧
    (mapItemPerMetric exTenant exNamespaceA1 "A" itemNoName).map
        (fun s => s.labels.metric) = some "A" := by
  constructor
  · have h1 : mapItem exTenant exNamespaceAB itemNoName =
        some { labels := { tenancy := "prod", region := "eu-frankfurt-1",
                           namespace_ := "N", metric := "",
                           dimension_key := "resourceId",
                           dimension_value := "ocid1.instance.r1" },
               value := 7 } := by decide
    have h2 := (metric_label_fallback exTenant exNamespaceAB "A" itemNoName).1 _ h1
    rw [h1]
    exact congrArg some h2
  · have h1 : mapItemPerMetric exTenant exNamespaceA1 "A" itemNoName =
        some { labels := { tenancy := "prod", region := "eu-frankfurt-1",
                           namespace_ := "N1", metric := "A",
                           resource_id := "ocid1.instance.r1",
                           resource_display_name := "" },
               value := 7 } := by decide
    have h2 := (metric_label_fallback exTenant exNamespaceA1 "A" itemNoName).2 _ h1
    rw [h1]
    exact congrArg some h2

/-- The accumulator of `String.intercalate.go` is a prefix of its result, so
the result is at least as long. -/
theorem intercalate_go_length (s : String) : ∀ (as : List String) (acc : String),
    acc.length ≤ (String.intercalate.go acc s as).length := by
  intro as
  induction as with
  | nil =>
    intro acc
    exact Nat.le_refl _
  | cons a as ih =>
    intro acc
    have h1 : acc.length ≤ (acc ++ s ++ a).length := by
      rw [String.length_append, String.length_append]
      omega
    exact Nat.le_trans h1 (ih (acc ++ s ++ a))

/-- C3: for a non-empty name list the built query text is non-empty; the
`parts` slice carries exactly one term per requested metric name, in input
order (duplicates each produce their own term); and a namespace with an empty
name list is skipped entirely — no query, no outbound call, no event. -/
theorem buildQuery_one_term_per_name (names : List String) :
    (names ≠ [] → buildQuery names ≠ "") ∧
    (queryParts names).length = names.length ∧
    (∀ i : Nat, (queryParts names)[i]? = (names[i]?).map queryTerm) ∧
    (∀ client t now ns st, ns.Names = [] →
      processNamespace client t now ns st = st) := by
  refine ⟨?_, by simp [queryParts], ?_, ?_⟩
  · intro hne hempty
    rcases names with _ | ⟨a, as⟩
    · exact hne rfl
    · have hlen : (buildQuery (a :: as)).length = 0 := by
        rw [hempty]
        rfl
      have hge : (queryTerm a).length ≤ (buildQuery (a :: as)).length :=
        intercalate_go_length "," (as.map queryTerm) (queryTerm a)
      have hq : (queryTerm a).length = a.length + 11 := by
        have h11 : ("[1m].mean()" : String).length = 11 := by decide
        rw [queryTerm, String.length_append, h11]
      omega
  · intro i
    simp [queryParts]
  · intro client t now ns st h
    simp [processNamespace, h]

/-- Witness for C3: the duplicated name list ["A", "A"] builds the non-empty
query "A[1m].mean(),A[1m].mean()" with two terms, and the namespace with no
names leaves the sweep state untouched. -/
theorem buildQuery_one_term_per_name_witness :
    buildQuery ["A", "A"] ≠ "" ∧
    buildQuery ["A", "A"] = "A[1m].mean(),A[1m].mean()" ∧
    (queryParts ["A", "A"]).length = 2 ∧
    processNamespace okClientAB exTenant 300000 emptyNamespace ([], [], 0) =
      ([], [], 0) := by
  refine ⟨(buildQuery_one_term_per_name ["A", "A"]).1 (by decide), by decide,
    (buildQuery_one_term_per_name ["A", "A"]).2.1, ?_⟩
  exact (buildQuery_one_term_per_name ["A", "A"]).2.2.2 okClientAB exTenant
    300000 emptyNamespace ([], [], 0) rfl

/-- Every request recorded by one retry call is the request it was given. -/
theorem retry_calls_req (client : Nat → CallResult) (req : SummarizeMetricsDataRequest) :
    ∀ q ∈ callRequests (summarizeWithRetry client req).2, q = req := by
  intro q hq
  rcases retry_events_cases client req with h | h | h | h <;> rw [h] at hq <;>
    simp_all [callRequests, reqOf]

/-- Every retry call's trace contains at least one call event for its request. -/
theorem retry_head_call (client : Nat → CallResult) (req : SummarizeMetricsDataRequest) :
    Event.call req ∈ (summarizeWithRetry client req).2 := by
  rcases retry_events_cases client req with h | h | h | h <;> rw [h] <;> simp

/-- The events of a processed pair extend the incoming event list. -/
theorem processNamespace_events_ext (client : Nat → CallResult) (t : Tenancy)
    (now : Int) (ns : MetricNamespace) (st : Registry × List Event × Nat) :
    ∃ tail, (processNamespace client t now ns st).2.1 = st.2.1 ++ tail := by
  by_cases h : ns.Names.isEmpty
  · exact ⟨[], by simp [processNamespace, h]⟩
  · exact ⟨(summarizeWithRetry (fun i => client (st.2.2 + i)) (buildRequest t ns now)).2 ++
      [Event.sleep 100], by simp [processNamespace, h]⟩

/-- The events of a processed namespace list extend the incoming event list. -/
theorem processNamespaces_events_ext (client : Nat → CallResult) (t : Tenancy)
    (now : Int) : ∀ (nss : List MetricNamespace) (st : Registry × List Event × Nat),
    ∃ tail, (processNamespaces client t now nss st).2.1 = st.2.1 ++ tail := by
  intro nss
  induction nss with
  | nil =>
    intro st
    exact ⟨[], by simp [processNamespaces]⟩
  | cons ns rest ih =>
    intro st
    obtain ⟨t1, h1⟩ := processNamespace_events_ext client t now ns st
    obtain ⟨t2, h2⟩ := ih (processNamespace client t now ns st)
    refine ⟨t1 ++ t2, ?_⟩
    simp only [processNamespaces]
    rw [h2, h1, List.append_assoc]

/-- The events of the processed tenant list extend the incoming event list. -/
theorem collectTenants_events_ext (client : Nat → CallResult) (times : Nat → Int)
    (nss : List MetricNamespace) : ∀ (tenants : List Tenancy) (i : Nat)
    (st : Registry × List Event × Nat),
    ∃ tail, (collectTenants client times nss tenants i st).2.1 = st.2.1 ++ tail := by
  intro tenants
  induction tenants with
  | nil =>
    intro i st
    exact ⟨[], by simp [collectTenants]⟩
  | cons t0 rest ih =>
    intro i st
    obtain ⟨t1, h1⟩ := processNamespaces_events_ext client t0 (times i) nss st
    obtain ⟨t2, h2⟩ := ih (i + 1) (processNamespaces client t0 (times i) nss st)
    refine ⟨t1 ++ t2, ?_⟩
    simp only [collectTenants]
    rw [h2, h1, List.append_assoc]

/-- A pair with a non-empty name list records a call event for its request. -/
theorem processNamespace_call_mem (client : Nat → CallResult) (t : Tenancy)
    (now : Int) (ns : MetricNamespace) (st : Registry × List Event × Nat)
    (h : ns.Names ≠ []) :
    Event.call (buildRequest t ns now) ∈ (processNamespace client t now ns st).2.1 := by
  have he : ns.Names.isEmpty = false := by
    simp [h]
  have hev : (processNamespace client t now ns st).2.1 =
      st.2.1 ++ (summarizeWithRetry (fun i => client (st.2.2 + i))
        (buildRequest t ns now)).2 ++ [Event.sleep 100] := by
    simp [processNamespace, he]
  rw [hev]
  exact List.mem_append.mpr (Or.inl (List.mem_append.mpr (Or.inr
    (retry_head_call _ _))))

/-- Every namespace with a non-empty name list gets its call event within the
processed namespace list, regardless of the other pairs' outcomes. -/
theorem processNamespaces_call_mem (client : Nat → CallResult) (t : Tenancy)
    (now : Int) : ∀ (nss : List MetricNamespace) (st : Registry × List Event × Nat)
    (ns : MetricNamespace), ns ∈ nss → ns.Names ≠ [] →
    Event.call (buildRequest t ns now) ∈ (processNamespaces client t now nss st).2.1 := by
  intro nss
  induction nss with
  | nil =>
    intro st ns hmem
    simp at hmem
  | cons n rest ih =>
    intro st ns hmem hne
    rcases List.mem_cons.mp hmem with hcase | hcase
    · subst hcase
      obtain ⟨tail, ht⟩ := processNamespaces_events_ext client t now rest
        (processNamespace client t now ns st)
      simp only [processNamespaces]
      rw [ht]
      exact List.mem_append.mpr (Or.inl (processNamespace_call_mem client t now ns st hne))
    · simp only [processNamespaces]
      exact ih (processNamespace client t now n st) ns hcase hne

/-- Every (tenant, namespace) pair with a non-empty name list gets its call
event within the sweep, at the time observed for that tenant. -/
theorem collectTenants_call_mem (client : Nat → CallResult) (times : Nat → Int)
    (nss : List MetricNamespace) : ∀ (tenants : List Tenancy) (i : Nat)
    (st : Registry × List Event × Nat) (t : Tenancy) (ns : MetricNamespace),
    t ∈ tenants → ns ∈ nss → ns.Names ≠ [] →
    ∃ now, Event.call (buildRequest t ns now) ∈
      (collectTenants client times nss tenants i st).2.1 := by
  intro tenants
  induction tenants with
  | nil =>
    intro i st t ns hmem
    simp at hmem
  | cons t0 rest ih =>
    intro i st t ns hmem hns hne
    rcases List.mem_cons.mp hmem with hcase | hcase
    · subst hcase
      obtain ⟨tail, ht⟩ := collectTenants_events_ext client times nss rest (i + 1)
        (processNamespaces client t (times i) nss st)
      refine ⟨times i, ?_⟩
      simp only [collectTenants]
      rw [ht]
      exact List.mem_append.mpr (Or.inl
        (processNamespaces_call_mem client t (times i) nss st ns hns hne))
    · simp only [collectTenants]
      exact ih (i + 1) (processNamespaces client t0 (times i) nss st) t ns hcase hns hne

/-- The built request always spans exactly one minute, with subtree scope. -/
theorem buildRequest_window (t : Tenancy) (ns : MetricNamespace) (now : Int) :
    (buildRequest t ns now).EndTime - (buildRequest t ns now).StartTime =
      (samplingInterval : Int) ∧
    (buildRequest t ns now).CompartmentIdInSubtree = true := by
  refine ⟨?_, rfl⟩
  simp [buildRequest, samplingInterval]

/-- A request predicate holding on every built request and on the incoming
events keeps holding after one pair is processed. -/
theorem processNamespace_reqOK (P : SummarizeMetricsDataRequest → Prop)
    (hP : ∀ t ns now, P (buildRequest t ns now)) (client : Nat → CallResult)
    (t : Tenancy) (now : Int) (ns : MetricNamespace)
    (st : Registry × List Event × Nat)
    (h : ∀ req ∈ callRequests st.2.1, P req) :
    ∀ req ∈ callRequests (processNamespace client t now ns st).2.1, P req := by
  intro req hreq
  by_cases he : ns.Names.isEmpty
  · rw [show (processNamespace client t now ns st) = st by
      simp [processNamespace, he]] at hreq
    exact h req hreq
  · have hev : (processNamespace client t now ns st).2.1 =
        st.2.1 ++ (summarizeWithRetry (fun i => client (st.2.2 + i))
          (buildRequest t ns now)).2 ++ [Event.sleep 100] := by
      simp [processNamespace, he]
    rw [hev] at hreq
    simp only [callRequests, List.filterMap_append, List.mem_append] at hreq
    rcases hreq with (hreq | hreq) | hreq
    · exact h req hreq
    · have := retry_calls_req (fun i => client (st.2.2 + i)) (buildRequest t ns now) req hreq
      rw [this]
      exact hP t ns now
    · simp [reqOf] at hreq

/-- The request predicate is preserved over the namespace loop. -/
theorem processNamespaces_reqOK (P : SummarizeMetricsDataRequest → Prop)
    (hP : ∀ t ns now, P (buildRequest t ns now)) (client : Nat → CallResult)
    (t : Tenancy) (now : Int) : ∀ (nss : List MetricNamespace)
    (st : Registry × List Event × Nat),
    (∀ req ∈ callRequests st.2.1, P req) →
    ∀ req ∈ callRequests (processNamespaces client t now nss st).2.1, P req := by
  intro nss
  induction nss with
  | nil =>
    intro st h
    simpa [processNamespaces] using h
  | cons n rest ih =>
    intro st h
    simp only [processNamespaces]
    exact ih (processNamespace client t now n st)
      (processNamespace_reqOK P hP client t now n st h)

/-- The request predicate is preserved over the tenant loop. -/
theorem collectTenants_reqOK (P : SummarizeMetricsDataRequest → Prop)
    (hP : ∀ t ns now, P (buildRequest t ns now)) (client : Nat → CallResult)
    (times : Nat → Int) (nss : List MetricNamespace) : ∀ (tenants : List Tenancy)
    (i : Nat) (st : Registry × List Event × Nat),
    (∀ req ∈ callRequests st.2.1, P req) →
    ∀ req ∈ callRequests (collectTenants client times nss tenants i st).2.1, P req := by
  intro tenants
  induction tenants with
  | nil =>
    intro i st h
    simpa [collectTenants] using h
  | cons t0 rest ih =>
    intro i st h
    simp only [collectTenants]
    exact ih (i + 1) (processNamespaces client t0 (times i) nss st)
      (processNamespaces_reqOK P hP client t0 (times i) nss st h)

/-- C4 counterexample: the single call of a concrete sweep is issued over a
window whose lookback equals the 1-minute sampling interval — it does not
strictly exceed it, refuting the claimed `W > sampling interval`. -/
theorem query_window_lookback_cex :
    callRequests (collectMetrics okClientAB exTimes [exTenant] [exNamespaceA1] []).2.1 =
      [buildRequest exTenant exNamespaceA1 300000] ∧
    (buildRequest exTenant exNamespaceA1 300000).EndTime -
        (buildRequest exTenant exNamespaceA1 300000).StartTime =
      (samplingInterval : Int) ∧
    ¬ ((samplingInterval : Int) <
        (buildRequest exTenant exNamespaceA1 300000).EndTime -
          (buildRequest exTenant exNamespaceA1 300000).StartTime) := by
  refine ⟨by decide, by decide, by decide⟩

/-- C4 amended: every outbound call of a sweep is issued over the window
`[now − W, now)` for the fixed lookback W = 1 minute, which equals the
1-minute sampling interval used inside the query, with subtree scope. -/
theorem query_window_one_minute (client : Nat → CallResult) (times : Nat → Int)
    (tenants : List Tenancy) (nss : List MetricNamespace) (r0 : Registry) :
    ∀ req ∈ callRequests (collectMetrics client times tenants nss r0).2.1,
      req.EndTime - req.StartTime = (samplingInterval : Int) ∧
      req.CompartmentIdInSubtree = true := by
  exact collectTenants_reqOK _ buildRequest_window client times nss tenants 0
    (r0, [], 0) (by simp [callRequests])

/-- Witness for the amended C4: the concrete sweep's one request spans
exactly the 1-minute sampling interval. -/
theorem query_window_one_minute_witness :
    (buildRequest exTenant exNamespaceA1 300000).EndTime -
        (buildRequest exTenant exNamespaceA1 300000).StartTime =
      (samplingInterval : Int) ∧
    (buildRequest exTenant exNamespaceA1 300000).CompartmentIdInSubtree = true :=
  query_window_one_minute okClientAB exTimes [exTenant] [exNamespaceA1] []
    (buildRequest exTenant exNamespaceA1 300000) (by decide)

/-- C7: a failing (tenant, namespace) pair leaves the registry untouched (it
is only logged), and every pair with a non-empty name list still issues its
own outbound call in the same sweep, whatever the other pairs did. -/
theorem sweep_failure_isolation :
    (∀ (client : Nat → CallResult) (t : Tenancy) (now : Int) (ns : MetricNamespace)
        (st : Registry × List Event × Nat) (msg : String),
      (summarizeWithRetry (fun i => client (st.2.2 + i)) (buildRequest t ns now)).1 =
        CallResult.err msg →
      (processNamespace client t now ns st).1 = st.1) ∧
    (∀ (client : Nat → CallResult) (times : Nat → Int) (tenants : List Tenancy)
        (nss : List MetricNamespace) (r0 : Registry) (t : Tenancy)
        (ns : MetricNamespace), t ∈ tenants → ns ∈ nss → ns.Names ≠ [] →
      ∃ req, req ∈ callRequests (collectMetrics client times tenants nss r0).2.1 ∧
        req.Namespace = ns.Namespace ∧ req.CompartmentId = t.CompartmentID) := by
  constructor
  · intro client t now ns st msg herr
    by_cases he : ns.Names.isEmpty
    · simp [processNamespace, he]
    · simp [processNamespace, he, herr]
  · intro client times tenants nss r0 t ns ht hns hne
    obtain ⟨now, hmem⟩ :=
      collectTenants_call_mem client times nss tenants 0 (r0, [], 0) t ns ht hns hne
    refine ⟨buildRequest t ns now, ?_, rfl, rfl⟩
    simp only [callRequests, List.mem_filterMap]
    exact ⟨Event.call (buildRequest t ns now), hmem, rfl⟩

/-- Witness for C7: with a client that fails the first pair (non-rate-limit
error "boom") and succeeds afterwards, the failing pair writes nothing, the
second pair still issues its call, and the sweep's registry holds exactly the
second pair's sample. -/
theorem sweep_failure_isolation_witness :
    (processNamespace mixedClient exTenant 300000 exNamespaceA1 ([], [], 0)).1 =
      ([] : Registry) ∧
    (∃ req, req ∈ callRequests
        (collectMetrics mixedClient exTimes [exTenant] [exNamespaceA1, exNamespaceA2]
          []).2.1 ∧
      req.Namespace = "N2" ∧ req.CompartmentId = "ocid1.compartment.oc1..bbb") ∧
    (collectMetrics mixedClient exTimes [exTenant] [exNamespaceA1, exNamespaceA2] []).1 =
      [({ tenancy := "prod", region := "eu-frankfurt-1", namespace_ := "N2",
          metric := "A", dimension_key := "resourceId",
          dimension_value := "ocid1.instance.r1" }, 20)] := by
  refine ⟨?_, ?_, by decide⟩
  · exact sweep_failure_isolation.1 mixedClient exTenant 300000 exNamespaceA1
      ([], [], 0) "boom" (by decide)
  · exact sweep_failure_isolation.2 mixedClient exTimes [exTenant]
      [exNamespaceA1, exNamespaceA2] [] exTenant exNamespaceA2 (by decide) (by decide)
      (by decide)

/-- Folding the gap analysis over one pair block (one retry trace followed by
the 100 ms pacing sleep) preserves the gap invariant. -/
theorem gapInv_block (client : Nat → CallResult) (req : SummarizeMetricsDataRequest)
    (st : List Nat × Option Nat) (h : gapInv st) :
    gapInv (List.foldl stepGap st
      ((summarizeWithRetry client req).2 ++ [Event.sleep 100])) := by
  obtain ⟨hg, ha⟩ := h
  rcases st with ⟨gaps, acc⟩
  rcases retry_events_cases client req with hev | hev | hev | hev <;> rw [hev] <;>
    rcases acc with _ | a
  · show gapInv (gaps, some 100)
    exact ⟨fun g hgm => hg g hgm, fun b hb => by injection hb with h; omega⟩
  · show gapInv (gaps ++ [a], some 100)
    refine ⟨?_, fun b hb => by injection hb with h; omega⟩
    intro g hgm
    rcases List.mem_append.mp hgm with hgm | hgm
    · exact hg g hgm
    · rw [List.mem_singleton.mp hgm]
      exact ha a rfl
  · show gapInv (gaps ++ [1 * Second], some 100)
    refine ⟨?_, fun b hb => by injection hb with h; omega⟩
    intro g hgm
    rcases List.mem_append.mp hgm with hgm | hgm
    · exact hg g hgm
    · rw [List.mem_singleton.mp hgm]
      norm_num [Second]
  · show gapInv ((gaps ++ [a]) ++ [1 * Second], some 100)
    refine ⟨?_, fun b hb => by injection hb with h; omega⟩
    intro g hgm
    rcases List.mem_append.mp hgm with hgm | hgm
    · rcases List.mem_append.mp hgm with hgm | hgm
      · exact hg g hgm
      · rw [List.mem_singleton.mp hgm]
        exact ha a rfl
    · rw [List.mem_singleton.mp hgm]
      norm_num [Second]
  · show gapInv ((gaps ++ [1 * Second]) ++ [2 * Second], some 100)
    refine ⟨?_, fun b hb => by injection hb with h; omega⟩
    intro g hgm
    rcases List.mem_append.mp hgm with hgm | hgm
    · rcases List.mem_append.mp hgm with hgm | hgm
      · exact hg g hgm
      · rw [List.mem_singleton.mp hgm]
        norm_num [Second]
    · rw [List.mem_singleton.mp hgm]
      norm_num [Second]
  · show gapInv (((gaps ++ [a]) ++ [1 * Second]) ++ [2 * Second], some 100)
    refine ⟨?_, fun b hb => by injection hb with h; omega⟩
    intro g hgm
    rcases List.mem_append.mp hgm with hgm | hgm
    · rcases List.mem_append.mp hgm with hgm | hgm
      · rcases List.mem_append.mp hgm with hgm | hgm
        · exact hg g hgm
        · rw [List.mem_singleton.mp hgm]
          exact ha a rfl
      · rw [List.mem_singleton.mp hgm]
        norm_num [Second]
    · rw [List.mem_singleton.mp hgm]
      norm_num [Second]
  · show gapInv ((gaps ++ [1 * Second]) ++ [2 * Second], some 4100)
    refine ⟨?_, fun b hb => by injection hb with h; omega⟩
    intro g hgm
    rcases List.mem_append.mp hgm with hgm | hgm
    · rcases List.mem_append.mp hgm with hgm | hgm
      · exact hg g hgm
      · rw [List.mem_singleton.mp hgm]
        norm_num [Second]
    · rw [List.mem_singleton.mp hgm]
      norm_num [Second]
  · show gapInv (((gaps ++ [a]) ++ [1 * Second]) ++ [2 * Second], some 4100)
    refine ⟨?_, fun b hb => by injection hb with h; omega⟩
    intro g hgm
    rcases List.mem_append.mp hgm with hgm | hgm
    · rcases List.mem_append.mp hgm with hgm | hgm
      · rcases List.mem_append.mp hgm with hgm | hgm
        · exact hg g hgm
        · rw [List.mem_singleton.mp hgm]
          exact ha a rfl
      · rw [List.mem_singleton.mp hgm]
        norm_num [Second]
    · rw [List.mem_singleton.mp hgm]
      norm_num [Second]

/-- Processing one pair preserves the gap invariant of the sweep trace. -/
theorem gapInv_processNamespace (client : Nat → CallResult) (t : Tenancy)
    (now : Int) (ns : MetricNamespace) (st : Registry × List Event × Nat)
    (h : gapInv (List.foldl stepGap ([], none) st.2.1)) :
    gapInv (List.foldl stepGap ([], none) (processNamespace client t now ns st).2.1) := by
  by_cases he : ns.Names.isEmpty
  · rw [show (processNamespace client t now ns st) = st by simp [processNamespace, he]]
    exact h
  · have hev : (processNamespace client t now ns st).2.1 =
        st.2.1 ++ ((summarizeWithRetry (fun i => client (st.2.2 + i))
          (buildRequest t ns now)).2 ++ [Event.sleep 100]) := by
      simp [processNamespace, he]
    rw [hev, List.foldl_append]
    exact gapInv_block _ _ _ h

/-- The namespace loop preserves the gap invariant of the sweep trace. -/
theorem gapInv_processNamespaces (client : Nat → CallResult) (t : Tenancy)
    (now : Int) : ∀ (nss : List MetricNamespace) (st : Registry × List Event × Nat),
    gapInv (List.foldl stepGap ([], none) st.2.1) →
    gapInv (List.foldl stepGap ([], none) (processNamespaces client t now nss st).2.1) := by
  intro nss
  induction nss with
  | nil =>
    intro st h
    simpa [processNamespaces] using h
  | cons n rest ih =>
    intro st h
    simp only [processNamespaces]
    exact ih (processNamespace client t now n st)
      (gapInv_processNamespace client t now n st h)

/-- The tenant loop preserves the gap invariant of the sweep trace. -/
theorem gapInv_collectTenants (client : Nat → CallResult) (times : Nat → Int)
    (nss : List MetricNamespace) : ∀ (tenants : List Tenancy) (i : Nat)
    (st : Registry × List Event × Nat),
    gapInv (List.foldl stepGap ([], none) st.2.1) →
    gapInv (List.foldl stepGap ([], none)
      (collectTenants client times nss tenants i st).2.1) := by
  intro tenants
  induction tenants with
  | nil =>
    intro i st h
    simpa [collectTenants] using h
  | cons t0 rest ih =>
    intro i st h
    simp only [collectTenants]
    exact ih (i + 1) (processNamespaces client t0 (times i) nss st)
      (gapInv_processNamespaces client t0 (times i) nss st h)

/-- C8: within one sweep, at least 100 ms of sleep elapses between every pair
of consecutive outbound calls, whatever each call's outcome was — the pacing
sleep follows every (tenant, namespace) query, and backoff sleeps only add to
the spacing. -/
theorem sweep_call_spacing (client : Nat → CallResult) (times : Nat → Int)
    (tenants : List Tenancy) (nss : List MetricNamespace) (r0 : Registry) :
    ∀ g ∈ callGaps (collectMetrics client times tenants nss r0).2.1, 100 ≤ g := by
  have h0 : gapInv (List.foldl stepGap ([], none) (([] : List Event))) := by
    constructor
    · intro g hg
      simp at hg
    · intro a ha
      simp at ha
  exact (gapInv_collectTenants client times nss tenants 0 (r0, [], 0) h0).1

/-- Witness for C8: a concrete sweep issuing two calls has exactly the one
inter-call gap of 100 ms, which satisfies the bound. -/
theorem sweep_call_spacing_witness :
    callGaps (collectMetrics okClientAB exTimes [exTenant]
      [exNamespaceA1, exNamespaceA2] []).2.1 = [100] ∧
    100 ≤ 100 := by
  refine ⟨by decide, ?_⟩
  exact sweep_call_spacing okClientAB exTimes [exTenant]
    [exNamespaceA1, exNamespaceA2] [] 100 (by decide)

end OciExporter
